import Mathlib

/-!
Verification of the SF-mmCIF → MTZ conversion engine (`cif2mtz`).

The development shallowly embeds the conversion pipeline of
`convert_block_to_mtz` and its helpers: the spec-line grammar
(`add_spec_line`, `default_spec`), the tag resolver (`resolveSpec`),
the destination-container builder (synthetic unmerged columns, batch),
the row materializer (`materializeRow`, null → NaN handling,
`status_to_freeflag`) and the multi-block driver (`run_dir`).

Floating-point destination cells are modelled by `FVal`: either NaN or a
rational number.  External helpers that are declared outside the excerpt
(CIF value parsing, the symmetry reduction service, the binary writer)
are modelled from the spec; each such definition says so in its
doc comment.  The symmetry service and the writer stay abstract
parameters, as the spec describes them as injected capabilities.
-/

/-- A destination (MTZ) cell value: IEEE-754 NaN or a numeric value.
The numeric values appearing in the claims are exactly representable,
so rationals model them faithfully. -/
inductive FVal where
  | nan : FVal
  | num : ℚ → FVal
deriving DecidableEq

/-- One spec-table mapping entry (`CifToMtz::Entry`). -/
structure Entry where
  refln_tag : String
  col_label : String
  col_type : Char
  dataset_id : Int
deriving DecidableEq

/-- A destination column (`gemmi::Mtz::Column`): the metadata fields the
conversion engine sets. -/
structure Column where
  dataset_id : Int
  type : Char
  label : String
deriving DecidableEq

/-- Modelled from the spec: a reflection loop of a parsed CIF block
(`cif::Loop`, external to the excerpt) exposes an ordered tag list and a
flat row-major value sequence with `tags.length` values per row. -/
structure Loop where
  tags : List String
  values : List String
deriving DecidableEq

/-- Modelled from the spec: a source block (`gemmi::ReflnBlock`, external
to the excerpt) carries a name and at most one reflection loop of each of
the two categories (merged `_refln` and unmerged `_diffrn_refln`). -/
structure ReflnBlock where
  name : String
  refln_loop : Option Loop
  diffrn_refln_loop : Option Loop
deriving DecidableEq

/-- Whitespace separators used by the spec-line grammar (`" \t\r\n"`). -/
def isSep (c : Char) : Bool :=
  c = ' ' || c = '\t' || c = '\r' || c = '\n'

/-- Accumulator form of the splitter: `acc` holds the reversed current
token. -/
def splitTokensAux : List Char → List Char → List String
  | [], acc => if acc.isEmpty then [] else [String.mk acc.reverse]
  | c :: rest, acc =>
    if isSep c then
      if acc.isEmpty then splitTokensAux rest []
      else String.mk acc.reverse :: splitTokensAux rest []
    else splitTokensAux rest (c :: acc)

/-- Modelled from the spec: `gemmi::split_str_into_multi` (external to the
excerpt) splits on any separator character and skips empty fields, i.e. it
produces the maximal non-separator runs, in order. -/
def splitTokens (l : List Char) : List String :=
  splitTokensAux l []

/-- `CifToMtz::add_spec_line`: parse one spec line into an `Entry`;
a line must have exactly 4 whitespace-separated words, the type must be a
single character and the dataset id the single character `0` or `1`. -/
def add_spec_line (line : String) : Except String Entry :=
  match splitTokens line.toList with
  | [t0, t1, t2, t3] =>
    if t2.length ≠ 1 || t3.length ≠ 1 || (t3 ≠ "0" && t3 ≠ "1") then
      .error ("incorrect line: " ++ line)
    else
      .ok { refln_tag := t0, col_label := t1,
            col_type := t2.toList.getD 0 (Char.ofNat 0),
            dataset_id := if t3 = "1" then 1 else 0 }
  | _ => .error ("line should have 4 words: " ++ line)

/-- The spec-loading loop of the driver: parse every line with
`add_spec_line`; the first bad line aborts (reported as a spec problem,
exit code 2, before any conversion starts). -/
def parseSpecLines : List String → Except String (List Entry)
  | [] => .ok []
  | l :: rest =>
    match add_spec_line l with
    | .error e => .error e
    | .ok entry =>
      match parseSpecLines rest with
      | .error e => .error e
      | .ok es => .ok (entry :: es)

/-- The built-in default spec table (`default_spec`), byte-for-byte. -/
def default_spec : List String := [
  "index_h H H 0",
  "index_k K H 0",
  "index_l L H 0",
  "pdbx_r_free_flag FreeR_flag I 0",
  "status FreeR_flag s 0",
  "intensity_meas I J 1",
  "intensity_net I J 1",
  "intensity_sigma SIGI Q 1",
  "pdbx_I_plus I(+) K 1",
  "pdbx_I_plus_sigma SIGI(+) M 1",
  "pdbx_I_minus I(-) K 1",
  "pdbx_I_minus_sigma SIGI(-) M 1",
  "F_meas_au FP F 1",
  "F_meas_sigma_au SIGFP Q 1",
  "pdbx_F_plus F(+) G 1",
  "pdbx_F_plus_sigma SIGF(+) L 1",
  "pdbx_F_minus F(-) G 1",
  "pdbx_F_minus_sigma SIGF(-) L 1",
  "pdbx_anom_difference DP D 1",
  "pdbx_anom_difference_sigma SIGDP Q 1",
  "F_calc FC F 1",
  "phase_calc PHIC P 1",
  "fom FOM W 1",
  "weight FOM W 1",
  "pdbx_HL_A_iso HLA A 1",
  "pdbx_HL_B_iso HLB A 1",
  "pdbx_HL_C_iso HLC A 1",
  "pdbx_HL_D_iso HLD A 1",
  "pdbx_FWT FWT F 1",
  "pdbx_PHWT PHWT P 1",
  "pdbx_DELFWT DELFWT F 1",
  "pdbx_DELPHWT DELPHWT P 1"]

/-- The category part of the first tag, kept up to and including the first
dot: `tags[0].substr(0, tags[0].find('.') + 1)`.  When no dot is present,
`find` gives `npos` and `npos + 1` wraps to `0`, so the result is empty. -/
def tagCategory (t : String) : String :=
  if t.toList.contains '.' then
    String.mk (t.toList.takeWhile (fun c => c ≠ '.') ++ ['.'])
  else ""

/-- Modelled from the spec: `cif::Loop::find_tag` (external to the
excerpt) looks a fully-qualified tag up in the loop's tag list, giving its
position or not-found. -/
def find_tag : List String → String → Option Nat
  | [], _ => none
  | s :: rest, t => if s = t then some 0 else (find_tag rest t).map (· + 1)

/-- Modelled from the spec: `cif::is_null` (external to the excerpt)
recognises the format's null markers, the "not applicable" sentinel `.`
and the "unknown" sentinel `?`. -/
def is_null (s : String) : Bool :=
  s = "." || s = "?"

/-- Value of a digit run, most significant first. -/
def digitsVal (l : List Char) : Nat :=
  l.foldl (fun a c => 10 * a + (c.toNat - 48)) 0

/-- Unsigned-integer part of the CIF integer parser: all characters must
be digits and at least one must be present. -/
def parseNatCore (l : List Char) : Option Nat :=
  if l ≠ [] && l.all (fun c => c.isDigit) then some (digitsVal l) else none

/-- Modelled from the spec: `cif::as_int` (external to the excerpt),
used for the Miller-index cells.  Per the repository's own test of
`string_to_int`, forcing conversion of a non-integer string is an error,
so a value that is not an optionally-signed digit run (null markers
included) makes the conversion fail. -/
def as_int (s : String) : Except String Int :=
  let core : Option Int :=
    match s.toList with
    | '-' :: rest => (parseNatCore rest).map (fun n => -(n : Int))
    | '+' :: rest => (parseNatCore rest).map (fun n => (n : Int))
    | l => (parseNatCore l).map (fun n => (n : Int))
  match core with
  | some n => .ok n
  | none => .error ("not an integer: " ++ s)

/-- Unsigned decimal number: digits with an optional fractional part. -/
def parseDecCore (l : List Char) : Option ℚ :=
  let intPart := l.takeWhile (fun c => c.isDigit)
  match l.dropWhile (fun c => c.isDigit) with
  | [] => if intPart = [] then none else some (digitsVal intPart : ℚ)
  | '.' :: frac =>
    if frac.all (fun c => c.isDigit) && (intPart ≠ [] || frac ≠ []) then
      some (mkRat (digitsVal intPart * 10 ^ frac.length + digitsVal frac)
                  (10 ^ frac.length))
    else none
  | _ => none

/-- Modelled from the spec: `cif::as_number` (external to the excerpt)
parses a reflection cell as a number; a value that fails to parse yields
NaN (and a per-cell diagnostic, not modelled). -/
def as_number (s : String) : Option ℚ :=
  match s.toList with
  | '-' :: rest => (parseDecCore rest).map (fun q => -q)
  | '+' :: rest => (parseDecCore rest).map (fun q => q)
  | l => parseDecCore l

/-- Character of `s` at position `i`; out of range gives the NUL character,
as `std::string::operator[]` does at `size()`. -/
def charAt (s : String) (i : Nat) : Char :=
  s.toList.getD i (Char.ofNat 0)

/-- `CifToMtz::status_to_freeflag`: look at the first character, step over
a single leading quote, then map `o → 1`, `f → 0`, anything else → NaN. -/
def status_to_freeflag (s : String) : FVal :=
  let c0 := charAt s 0
  let c := if c0 = '\'' || c0 = '"' then charAt s 1 else c0
  if c = 'o' then .num 1
  else if c = 'f' then .num 0
  else .nan

/-- State of the tag-resolution loop: the source-column indices, the
destination columns built so far, and whether a status column was found. -/
structure ResolveState where
  indices : List Nat
  columns : List Column
  uses_status : Bool
deriving DecidableEq

/-- The destination column an entry produces: the `s` status marker is
normalized to integer type `I`. -/
def mkColumn (e : Entry) : Column :=
  { dataset_id := e.dataset_id,
    type := if e.col_type = 's' then 'I' else e.col_type,
    label := e.col_label }

/-- One step of the resolution loop over the spec table (the body of the
`for (const Entry& entry : spec_entries)` loop). -/
def resolveEntry (lp : Loop) (pfx : String) (unmerged : Bool)
    (st : ResolveState) (e : Entry) : Except String ResolveState :=
  let tag := pfx ++ e.refln_tag
  match find_tag lp.tags tag with
  | some idx =>
    .ok <|
      if (st.columns.getLast?.map Column.label) = some e.col_label then st
      else if unmerged && e.col_type = 's' then st
      else
        { indices := st.indices ++ [idx],
          columns := st.columns ++ [mkColumn e],
          uses_status := st.uses_status || e.col_type = 's' }
  | none =>
    if e.col_type = 'H' then .error ("Miller index tag not found: " ++ tag)
    else .ok st

/-- The resolution loop from a given state over the remaining entries:
the first failing entry aborts, otherwise the state is threaded through. -/
def resolveFold (lp : Loop) (pfx : String) (unmerged : Bool)
    (st : ResolveState) : List Entry → Except String ResolveState
  | [] => .ok st
  | e :: rest =>
    match resolveEntry lp pfx unmerged st e with
    | .ok st' => resolveFold lp pfx unmerged st' rest
    | .error msg => .error msg

/-- The tag resolver: fold `resolveEntry` over the spec table, starting
from an empty state. -/
def resolveSpec (lp : Loop) (pfx : String) (unmerged : Bool)
    (spec : List Entry) : Except String ResolveState :=
  resolveFold lp pfx unmerged ⟨[], [], false⟩ spec

/-- The synthetic symmetry-operator-code column added for unmerged data. -/
def misymColumn : Column := { dataset_id := 1, type := 'Y', label := "M/ISYM" }

/-- The synthetic batch-number column added for unmerged data. -/
def batchColumn : Column := { dataset_id := 1, type := 'B', label := "BATCH" }

/-- Insertion of the two synthetic columns at positions 3 and 4
(`emplace(columns.begin() + 3)` then `emplace(columns.begin() + 4)`);
meaningful when at least the three Miller-index columns resolved. -/
def insert_synthetic (cols : List Column) : List Column :=
  cols.take 3 ++ [misymColumn, batchColumn] ++ cols.drop 3

/-- The symmetry reduction service (`gemmi::UnmergedHklMover::move_to_asu`,
external): maps a raw Miller triple to its canonical triple plus the ISYM
code; the spec requires it total and deterministic, which any Lean
function is. -/
def HklMover : Type := Int × Int × Int → (Int × Int × Int) × Int

/-- Source cell of a row at a resolved source-column index. -/
def cellString (row : List String) (idx : Nat) : String :=
  row.getD idx ""

/-- A destination cell of a general (non-index, non-status) column: the
null marker becomes NaN, otherwise the parsed number (NaN on parse
failure, which the program also reports as a non-fatal diagnostic). -/
def generalCell (row : List String) (idx : Nat) : FVal :=
  let v := cellString row idx
  if is_null v then .nan
  else match as_number v with
  | some q => .num q
  | none => .nan

/-- The cells of one row after the three leading Miller-index fields:
when a status column was flagged, the source column at resolved position 3
goes through `status_to_freeflag` and the remaining columns start at
position 4, otherwise they start at position 3. -/
def tailCells (indices : List Nat) (uses_status : Bool)
    (row : List String) : List FVal :=
  if uses_status then
    status_to_freeflag (cellString row (indices.getD 3 0)) ::
      (indices.drop 4).map (generalCell row)
  else
    (indices.drop 3).map (generalCell row)

/-- The row materializer: one iteration of the per-row loop of
`convert_block_to_mtz`.  In unmerged mode the three index cells are
integer-parsed, reduced to the asymmetric unit, and written as canonical
H, K, L, the ISYM code and the constant batch number 1; in merged mode
the three index cells are written directly.  The remaining cells follow
`tailCells`. -/
def materializeRow (indices : List Nat) (uses_status unmerged : Bool)
    (move_to_asu : HklMover) (row : List String) : Except String (List FVal) :=
  match as_int (cellString row (indices.getD 0 0)),
        as_int (cellString row (indices.getD 1 0)),
        as_int (cellString row (indices.getD 2 0)) with
  | .ok h, .ok k, .ok l =>
    if unmerged then
      let r := move_to_asu (h, k, l)
      .ok ([.num r.1.1, .num r.1.2.1, .num r.1.2.2, .num r.2, .num 1] ++
           tailCells indices uses_status row)
    else
      .ok ([.num h, .num k, .num l] ++ tailCells indices uses_status row)
  | .error e, _, _ => .error e
  | _, .error e, _ => .error e
  | _, _, .error e => .error e

/-- Materialize every row in order; the first failing row aborts the
conversion, as the thrown `std::runtime_error` would. -/
def materializeRows (indices : List Nat) (uses_status unmerged : Bool)
    (move_to_asu : HklMover) : List (List String) → Except String (List (List FVal))
  | [] => .ok []
  | row :: rest =>
    match materializeRow indices uses_status unmerged move_to_asu row with
    | .error e => .error e
    | .ok r =>
      match materializeRows indices uses_status unmerged move_to_asu rest with
      | .error e => .error e
      | .ok rs => .ok (r :: rs)

/-- Split a flat value sequence into rows of `n` values
(the `for (size_t i = 0; i < loop->values.size(); i += loop->tags.size())`
iteration). -/
def chunksGo (n : Nat) : Nat → List α → List (List α)
  | 0, _ => []
  | _, [] => []
  | fuel + 1, x :: xs =>
    (x :: xs).take n :: chunksGo n fuel ((x :: xs).drop n)

/-- Row chunking: with a positive width `n`, each step consumes `n`
values; `l.length` steps always suffice. -/
def chunksOf (n : Nat) (l : List α) : List (List α) :=
  if n = 0 then [] else chunksGo n l.length l

/-- The rows of a reflection loop. -/
def loopRows (lp : Loop) : List (List String) :=
  chunksOf lp.tags.length lp.values

/-- Loop selection: the merged `_refln` loop when present, else the
unmerged `_diffrn_refln` loop. -/
def selectedLoop (rb : ReflnBlock) : Option Loop :=
  match rb.refln_loop with
  | some l => some l
  | none => rb.diffrn_refln_loop

/-- The unmerged decision:
`bool unmerged = force_unmerged || !rb.refln_loop`. -/
def unmergedMode (force_unmerged : Bool) (rb : ReflnBlock) : Bool :=
  force_unmerged || rb.refln_loop.isNone

/-- The destination container (`gemmi::Mtz`): the fields this engine
builds.  `nbatches` counts the batch records. -/
structure Mtz where
  columns : List Column
  nbatches : Nat
  nreflections : Nat
  data : List FVal
deriving DecidableEq

/-- `CifToMtz::convert_block_to_mtz` up to the point where the finished
container is handed to the binary writer: loop selection, tag resolution,
synthetic unmerged columns and batch, and row-by-row materialization.
Failures (`gemmi::fail`, integer-parse failure in an index cell) are the
`.error` results. -/
def convert_block_to_mtz (spec : List Entry) (force_unmerged : Bool)
    (move_to_asu : HklMover) (rb : ReflnBlock) : Except String Mtz :=
  match selectedLoop rb with
  | none => .error ("_refln category not found in mmCIF block: " ++ rb.name)
  | some lp =>
    let unmerged := unmergedMode force_unmerged rb
    match resolveSpec lp (tagCategory (lp.tags.headD "")) unmerged spec with
    | .error e => .error e
    | .ok st =>
      match materializeRows st.indices st.uses_status unmerged move_to_asu
          (loopRows lp) with
      | .error e => .error e
      | .ok rows =>
        .ok { columns := if unmerged then insert_synthetic st.columns else st.columns,
              nbatches := if unmerged then 1 else 0,
              nreflections := lp.values.length / lp.tags.length,
              data := rows.flatten }

/-- Outcome of converting one block and writing its file: success, a
conversion error (`std::runtime_error` caught by the caller), or the
immediate `std::exit(3)` taken when the binary writer fails. -/
inductive BlockOutcome where
  | written : BlockOutcome
  | convError : String → BlockOutcome
  | writeExit : BlockOutcome
deriving DecidableEq

/-- Convert one block and hand the container to the binary writer.  The
writer (`Mtz::write_to_file`, external) is modelled from the spec as an
injected capability `writeOk : path → success?`; on its failure the
program prints an error and exits with code 3. -/
def convert_and_write (spec : List Entry) (force_unmerged : Bool)
    (move_to_asu : HklMover) (writeOk : String → Bool)
    (rb : ReflnBlock) (path : String) : BlockOutcome :=
  match convert_block_to_mtz spec force_unmerged move_to_asu rb with
  | .error e => .convError e
  | .ok _ => if writeOk path then .written else .writeExit

/-- Result of a whole run: the process exit code and the paths written. -/
structure RunResult where
  exitCode : Nat
  written : List String
deriving DecidableEq

/-- The output path of a block in directory mode: `DIR/<block-name>.mtz`. -/
def blockPath (dir : String) (rb : ReflnBlock) : String :=
  dir ++ "/" ++ rb.name ++ ".mtz"

/-- The directory-mode loop of the driver over the remaining blocks,
carrying the `ok` flag and the paths already written: a conversion error
is caught, reported, and processing continues with `ok = false`; a writer
failure exits the process with code 3 at once; at the end the exit code
is 0 when all blocks succeeded and 1 otherwise. -/
def runBlocks (spec : List Entry) (force_unmerged : Bool)
    (move_to_asu : HklMover) (writeOk : String → Bool) (dir : String) :
    List ReflnBlock → Bool → List String → RunResult
  | [], ok, acc => { exitCode := if ok then 0 else 1, written := acc.reverse }
  | rb :: rest, ok, acc =>
    match convert_and_write spec force_unmerged move_to_asu writeOk rb
        (blockPath dir rb) with
    | .written =>
      runBlocks spec force_unmerged move_to_asu writeOk dir rest ok
        (blockPath dir rb :: acc)
    | .convError _ =>
      runBlocks spec force_unmerged move_to_asu writeOk dir rest false acc
    | .writeExit => { exitCode := 3, written := acc.reverse }

/-- Directory mode of the driver (`--dir`): convert every block of the
input to its own file. -/
def run_dir (spec : List Entry) (force_unmerged : Bool)
    (move_to_asu : HklMover) (writeOk : String → Bool) (dir : String)
    (blocks : List ReflnBlock) : RunResult :=
  runBlocks spec force_unmerged move_to_asu writeOk dir blocks true []

/-- The resolver's output as (column, source index) pairs, pairing each
destination column with the source column it reads. -/
def resolvedPairs (st : ResolveState) : List (Column × Nat) :=
  st.columns.zip st.indices

deriving instance DecidableEq for Except

/-! ### Concrete instances used by scenario theorems and witnesses -/

/-- A trivial symmetry service (the identity reduction with ISYM 1); in
merged mode the service is never consulted. -/
def moverId : HklMover := fun p => (p, 1)

/-- A symmetry service mapping every triple to `(1, 0, 2)` with ISYM 3
(the spec's unmerged scenario). -/
def mover3 : HklMover := fun _ => ((1, 0, 2), 3)

/-- The merged scenario block: tags `index_h, index_k, index_l,
F_meas_au, F_meas_sigma_au` with the single row `(1, 2, 3, 100.0, 5.0)`. -/
def mergedExampleBlock : ReflnBlock :=
  { name := "merged_example",
    refln_loop := some
      { tags := ["_refln.index_h", "_refln.index_k", "_refln.index_l",
                 "_refln.F_meas_au", "_refln.F_meas_sigma_au"],
        values := ["1", "2", "3", "100.0", "5.0"] },
    diffrn_refln_loop := none }

/-- The merged scenario block with the unknown marker `?` in the
`index_h` cell. -/
def nullIndexBlock : ReflnBlock :=
  { name := "null_index",
    refln_loop := some
      { tags := ["_refln.index_h", "_refln.index_k", "_refln.index_l",
                 "_refln.F_meas_au", "_refln.F_meas_sigma_au"],
        values := ["?", "2", "3", "100.0", "5.0"] },
    diffrn_refln_loop := none }

/-- A spec table whose status entry resolves at position 4 (after the
three indices and an amplitude column). -/
def statusSpec : List Entry :=
  [{ refln_tag := "index_h", col_label := "H", col_type := 'H', dataset_id := 0 },
   { refln_tag := "index_k", col_label := "K", col_type := 'H', dataset_id := 0 },
   { refln_tag := "index_l", col_label := "L", col_type := 'H', dataset_id := 0 },
   { refln_tag := "F_meas_au", col_label := "FP", col_type := 'F', dataset_id := 1 },
   { refln_tag := "status", col_label := "FLAG", col_type := 's', dataset_id := 0 }]

/-- A merged block carrying both an amplitude and a status column. -/
def statusBlock : ReflnBlock :=
  { name := "status_example",
    refln_loop := some
      { tags := ["_refln.index_h", "_refln.index_k", "_refln.index_l",
                 "_refln.F_meas_au", "_refln.status"],
        values := ["1", "2", "3", "100.0", "o"] },
    diffrn_refln_loop := none }

/-- A small spec table: the three mandatory index entries plus one
amplitude entry. -/
def specSmall : List Entry :=
  [{ refln_tag := "index_h", col_label := "H", col_type := 'H', dataset_id := 0 },
   { refln_tag := "index_k", col_label := "K", col_type := 'H', dataset_id := 0 },
   { refln_tag := "index_l", col_label := "L", col_type := 'H', dataset_id := 0 },
   { refln_tag := "F_meas_au", col_label := "FP", col_type := 'F', dataset_id := 1 }]

/-- A merged block whose loop lacks the `index_k` tag. -/
def missingKBlock : ReflnBlock :=
  { name := "missing_k",
    refln_loop := some
      { tags := ["_refln.index_h", "_refln.index_l", "_refln.F_meas_au"],
        values := ["1", "3", "100.0"] },
    diffrn_refln_loop := none }

/-- First block of the multi-block driver example. -/
def blockA : ReflnBlock :=
  { name := "a",
    refln_loop := some
      { tags := ["_refln.index_h", "_refln.index_k", "_refln.index_l",
                 "_refln.F_meas_au"],
        values := ["1", "2", "3", "11.5"] },
    diffrn_refln_loop := none }

/-- Second block of the multi-block driver example. -/
def blockB : ReflnBlock :=
  { name := "b",
    refln_loop := some
      { tags := ["_refln.index_h", "_refln.index_k", "_refln.index_l",
                 "_refln.F_meas_au"],
        values := ["4", "5", "6", "12.5"] },
    diffrn_refln_loop := none }

/-- A binary writer that fails exactly on the first example block's
output path. -/
def failOnA : String → Bool := fun p => p != "out/a.mtz"

/-- A spec table for the unmerged witness: indices plus intensity and
sigma entries. -/
def specU : List Entry :=
  [{ refln_tag := "index_h", col_label := "H", col_type := 'H', dataset_id := 0 },
   { refln_tag := "index_k", col_label := "K", col_type := 'H', dataset_id := 0 },
   { refln_tag := "index_l", col_label := "L", col_type := 'H', dataset_id := 0 },
   { refln_tag := "intensity_net", col_label := "I", col_type := 'J', dataset_id := 1 },
   { refln_tag := "intensity_sigma", col_label := "SIGI", col_type := 'Q', dataset_id := 1 }]

/-- The reflection loop of the unmerged example block, with the single
row `(-1, 0, 2, 7.5, 0.5)`. -/
def diffrnLoop : Loop :=
  { tags := ["_diffrn_refln.index_h", "_diffrn_refln.index_k",
             "_diffrn_refln.index_l", "_diffrn_refln.intensity_net",
             "_diffrn_refln.intensity_sigma"],
    values := ["-1", "0", "2", "7.5", "0.5"] }

/-- An unmerged-only block: it has a `_diffrn_refln` loop and no merged
`_refln` loop. -/
def diffrnBlock : ReflnBlock :=
  { name := "diffrn_only",
    refln_loop := none,
    diffrn_refln_loop := some diffrnLoop }

/-- The resolver output for `specU` against `diffrnLoop`. -/
def stU : ResolveState :=
  { indices := [0, 1, 2, 3, 4],
    columns := [{ dataset_id := 0, type := 'H', label := "H" },
                { dataset_id := 0, type := 'H', label := "K" },
                { dataset_id := 0, type := 'H', label := "L" },
                { dataset_id := 1, type := 'J', label := "I" },
                { dataset_id := 1, type := 'Q', label := "SIGI" }],
    uses_status := false }

/-- The expected container for the unmerged witness conversion, with the
canonical row `(1, 0, 2)`, ISYM 3 and batch number 1 produced by
`mover3`. -/
def mtzU : Mtz :=
  { columns := [{ dataset_id := 0, type := 'H', label := "H" },
                { dataset_id := 0, type := 'H', label := "K" },
                { dataset_id := 0, type := 'H', label := "L" },
                misymColumn, batchColumn,
                { dataset_id := 1, type := 'J', label := "I" },
                { dataset_id := 1, type := 'Q', label := "SIGI" }],
    nbatches := 1, nreflections := 1,
    data := [FVal.num 1, FVal.num 0, FVal.num 2, FVal.num 3, FVal.num 1,
             FVal.num (mkRat 15 2), FVal.num (mkRat 1 2)] }

/-! ### General lemmas about the resolver and the materializer -/

/-- A successful `resolveEntry` step either leaves the columns and
indices unchanged (a skip) or appends exactly one column together with
its source index. -/
theorem resolveEntry_ok_cases {lp : Loop} {pfx : String} {unm : Bool}
    {st st' : ResolveState} {e : Entry}
    (h : resolveEntry lp pfx unm st e = .ok st') :
    (st'.columns = st.columns ∧ st'.indices = st.indices) ∨
    (∃ i, find_tag lp.tags (pfx ++ e.refln_tag) = some i ∧
      st'.columns = st.columns ++ [mkColumn e] ∧
      st'.indices = st.indices ++ [i]) := by
  simp only [resolveEntry] at h
  split at h
  · rename_i idx heq
    simp only [Except.ok.injEq] at h
    split at h
    · exact Or.inl ⟨by rw [← h], by rw [← h]⟩
    · split at h
      · exact Or.inl ⟨by rw [← h], by rw [← h]⟩
      · exact Or.inr ⟨idx, heq, by rw [← h], by rw [← h]⟩
  · rename_i heq
    split at h
    · exact absurd h (by simp)
    · simp only [Except.ok.injEq] at h
      exact Or.inl ⟨by rw [← h], by rw [← h]⟩

/-- A successful run of the resolution loop appends column/index pairs,
each arising from some entry of the processed list. -/
theorem resolveFold_shape {lp : Loop} {pfx : String} {unm : Bool} :
    ∀ {spec : List Entry} {st st' : ResolveState},
    resolveFold lp pfx unm st spec = .ok st' →
    ∃ ext : List (Column × Nat),
      st'.columns = st.columns ++ ext.map Prod.fst ∧
      st'.indices = st.indices ++ ext.map Prod.snd ∧
      ∀ p ∈ ext, ∃ e ∈ spec, p.1 = mkColumn e := by
  intro spec
  induction spec with
  | nil =>
    intro st st' h
    unfold resolveFold at h
    simp only [Except.ok.injEq] at h
    exact ⟨[], by simp [h], by simp [h], by simp⟩
  | cons e rest ih =>
    intro st st' h
    unfold resolveFold at h
    cases he : resolveEntry lp pfx unm st e with
    | error msg => rw [he] at h; exact absurd h (by simp)
    | ok st1 =>
      rw [he] at h
      obtain ⟨ext, hc, hi, hmem⟩ := ih h
      rcases resolveEntry_ok_cases he with ⟨hc1, hi1⟩ | ⟨i, _, hc1, hi1⟩
      · exact ⟨ext, by rw [hc, hc1], by rw [hi, hi1],
          fun p hp => (hmem p hp).imp (fun e' ⟨h1, h2⟩ => ⟨List.mem_cons_of_mem _ h1, h2⟩)⟩
      · refine ⟨(mkColumn e, i) :: ext, ?_, ?_, ?_⟩
        · rw [hc, hc1]; simp
        · rw [hi, hi1]; simp
        · intro p hp
          rcases List.mem_cons.mp hp with hp | hp
          · exact ⟨e, List.mem_cons_self _ _, by rw [hp]⟩
          · exact (hmem p hp).imp (fun e' ⟨h1, h2⟩ => ⟨List.mem_cons_of_mem _ h1, h2⟩)

/-- Zipping the two projections of a pair list gives the list back. -/
theorem zip_proj_eq (l : List (Column × Nat)) :
    (l.map Prod.fst).zip (l.map Prod.snd) = l := by
  induction l with
  | nil => rfl
  | cons p rest ih => simp [ih]

/-- The last element of a list is a member. -/
theorem mem_of_getLast?_eq : ∀ {l : List Column} {c : Column},
    l.getLast? = some c → c ∈ l := by
  intro l
  induction l with
  | nil => intro c h; simp at h
  | cons a t ih =>
    intro c h
    cases t with
    | nil => simp at h; simp [h]
    | cons b t' =>
      rw [List.getLast?_cons_cons] at h
      exact List.mem_cons_of_mem _ (ih h)

/-- A column list all of whose labels differ from `L` does not end in a
column labelled `L`. -/
theorem getLast_label_ne {cols : List Column} {L : String}
    (h : ∀ c ∈ cols, c.label ≠ L) :
    cols.getLast?.map Column.label ≠ some L := by
  cases hq : cols.getLast? with
  | none => simp
  | some c =>
    have hm : c ∈ cols := mem_of_getLast?_eq hq
    simp [h c hm]

/-- Resolution of an entry whose tag is found, whose label differs from
the last resolved column's, and which the unmerged status rule does not
skip, appends the column and its index. -/
theorem resolveEntry_appends {lp : Loop} {pfx : String} {unm : Bool}
    {st : ResolveState} {e : Entry} {i : Nat}
    (hf : find_tag lp.tags (pfx ++ e.refln_tag) = some i)
    (hdup : (st.columns.getLast?.map Column.label) ≠ some e.col_label)
    (hs : unm = false ∨ e.col_type ≠ 's') :
    resolveEntry lp pfx unm st e = .ok
      { indices := st.indices ++ [i], columns := st.columns ++ [mkColumn e],
        uses_status := st.uses_status || e.col_type = 's' } := by
  simp only [resolveEntry, hf]
  rw [if_neg hdup, if_neg]
  rcases hs with hs | hs <;> simp [hs]

/-- Resolution of an entry whose tag is absent and which is not a
Miller-index entry leaves the state unchanged. -/
theorem resolveEntry_skips_absent {lp : Loop} {pfx : String} {unm : Bool}
    {st : ResolveState} {e : Entry}
    (hf : find_tag lp.tags (pfx ++ e.refln_tag) = none)
    (hH : e.col_type ≠ 'H') :
    resolveEntry lp pfx unm st e = .ok st := by
  simp [resolveEntry, hf, hH]

/-- Resolution of an entry whose label equals the last resolved column's
label skips the entry (the duplicate-alternative rule). -/
theorem resolveEntry_skips_dup {lp : Loop} {pfx : String} {unm : Bool}
    {st : ResolveState} {e : Entry} {i : Nat}
    (hf : find_tag lp.tags (pfx ++ e.refln_tag) = some i)
    (hdup : (st.columns.getLast?.map Column.label) = some e.col_label) :
    resolveEntry lp pfx unm st e = .ok st := by
  simp [resolveEntry, hf, hdup]

/-- Unfolding step of the resolution loop on a successful entry. -/
theorem resolveFold_cons_ok {lp : Loop} {pfx : String} {unm : Bool}
    {st st1 : ResolveState} {e : Entry} {rest : List Entry}
    (he : resolveEntry lp pfx unm st e = .ok st1) :
    resolveFold lp pfx unm st (e :: rest) = resolveFold lp pfx unm st1 rest := by
  have hstep : resolveFold lp pfx unm st (e :: rest) =
      match resolveEntry lp pfx unm st e with
      | .ok st' => resolveFold lp pfx unm st' rest
      | .error msg => .error msg := rfl
  simp only [hstep, he]

/-- A successful fold over an appended list splits into two successful
folds. -/
theorem resolveFold_append_ok {lp : Loop} {pfx : String} {unm : Bool} :
    ∀ {A B : List Entry} {st st2 : ResolveState},
    resolveFold lp pfx unm st (A ++ B) = .ok st2 →
    ∃ st1, resolveFold lp pfx unm st A = .ok st1 ∧
      resolveFold lp pfx unm st1 B = .ok st2 := by
  intro A
  induction A with
  | nil => intro B st st2 h; exact ⟨st, rfl, h⟩
  | cons e rest ih =>
    intro B st st2 h
    rw [List.cons_append] at h
    unfold resolveFold at h
    cases he : resolveEntry lp pfx unm st e with
    | error msg => rw [he] at h; exact absurd h (by simp)
    | ok st1 =>
      rw [he] at h
      obtain ⟨stm, h1, h2⟩ := ih h
      exact ⟨stm, by rw [resolveFold_cons_ok he]; exact h1, h2⟩

/-- If some Miller-index (`H`-typed) entry of the remaining spec has no
matching tag, the resolution loop fails with the missing-index error
naming such a tag. -/
theorem resolveFold_error_of_missing_H {lp : Loop} {pfx : String} {unm : Bool} :
    ∀ {spec : List Entry} {st : ResolveState},
    (∃ e ∈ spec, e.col_type = 'H' ∧ find_tag lp.tags (pfx ++ e.refln_tag) = none) →
    ∃ e ∈ spec, e.col_type = 'H' ∧ find_tag lp.tags (pfx ++ e.refln_tag) = none ∧
      resolveFold lp pfx unm st spec =
        .error ("Miller index tag not found: " ++ (pfx ++ e.refln_tag)) := by
  intro spec
  induction spec with
  | nil => intro st h; simp at h
  | cons e rest ih =>
    intro st h
    cases hf : find_tag lp.tags (pfx ++ e.refln_tag) with
    | none =>
      by_cases hH : e.col_type = 'H'
      · refine ⟨e, List.mem_cons_self _ _, hH, hf, ?_⟩
        unfold resolveFold
        simp only [resolveEntry, hf]
        rw [if_pos hH]
      · have hrest : ∃ e' ∈ rest, e'.col_type = 'H' ∧
            find_tag lp.tags (pfx ++ e'.refln_tag) = none := by
          obtain ⟨e', he', h1, h2⟩ := h
          rcases List.mem_cons.mp he' with rfl | hm
          · exact absurd h1 hH
          · exact ⟨e', hm, h1, h2⟩
        obtain ⟨e', hm, h1, h2, h3⟩ := @ih st hrest
        exact ⟨e', List.mem_cons_of_mem _ hm, h1, h2, by
          rw [resolveFold_cons_ok (resolveEntry_skips_absent hf hH)]; exact h3⟩
    | some i =>
      have hrest : ∃ e' ∈ rest, e'.col_type = 'H' ∧
          find_tag lp.tags (pfx ++ e'.refln_tag) = none := by
        obtain ⟨e', he', h1, h2⟩ := h
        rcases List.mem_cons.mp he' with rfl | hm
        · rw [hf] at h2; exact absurd h2 (by simp)
        · exact ⟨e', hm, h1, h2⟩
      have hok : ∃ st1, resolveEntry lp pfx unm st e = .ok st1 := by
        simp only [resolveEntry, hf]
        exact ⟨_, rfl⟩
      obtain ⟨st1, hst1⟩ := hok
      obtain ⟨e', hm, h1, h2, h3⟩ := @ih st1 hrest
      exact ⟨e', List.mem_cons_of_mem _ hm, h1, h2, by
        rw [resolveFold_cons_ok hst1]; exact h3⟩

/-- A successfully materialized merged-mode row consists of the three
integer-parsed Miller indices followed by `tailCells`. -/
theorem materializeRow_merged_ok {indices : List Nat} {us : Bool}
    {mover : HklMover} {row : List String} {r : List FVal}
    (h : materializeRow indices us false mover row = .ok r) :
    ∃ h0 k0 l0, as_int (cellString row (indices.getD 0 0)) = .ok h0 ∧
      as_int (cellString row (indices.getD 1 0)) = .ok k0 ∧
      as_int (cellString row (indices.getD 2 0)) = .ok l0 ∧
      r = [FVal.num h0, FVal.num k0, FVal.num l0] ++ tailCells indices us row := by
  unfold materializeRow at h
  cases h0 : as_int (cellString row (indices.getD 0 0)) with
  | error e => rw [h0] at h; simp at h
  | ok a =>
    cases h1 : as_int (cellString row (indices.getD 1 0)) with
    | error e => rw [h0, h1] at h; simp at h
    | ok b =>
      cases h2 : as_int (cellString row (indices.getD 2 0)) with
      | error e => rw [h0, h1, h2] at h; simp at h
      | ok c =>
        rw [h0, h1, h2] at h
        simp only [Bool.false_eq_true, if_false, Except.ok.injEq] at h
        exact ⟨a, b, c, rfl, rfl, rfl, h.symm⟩

/-- A successfully materialized unmerged-mode row consists of the
canonical Miller triple, the ISYM code, the constant batch number 1, and
then `tailCells`. -/
theorem materializeRow_unmerged_ok {indices : List Nat} {us : Bool}
    {mover : HklMover} {row : List String} {r : List FVal}
    (h : materializeRow indices us true mover row = .ok r) :
    ∃ h0 k0 l0, as_int (cellString row (indices.getD 0 0)) = .ok h0 ∧
      as_int (cellString row (indices.getD 1 0)) = .ok k0 ∧
      as_int (cellString row (indices.getD 2 0)) = .ok l0 ∧
      r = [FVal.num (mover (h0, k0, l0)).1.1, FVal.num (mover (h0, k0, l0)).1.2.1,
           FVal.num (mover (h0, k0, l0)).1.2.2, FVal.num (mover (h0, k0, l0)).2,
           FVal.num 1] ++ tailCells indices us row := by
  unfold materializeRow at h
  cases h0 : as_int (cellString row (indices.getD 0 0)) with
  | error e => rw [h0] at h; simp at h
  | ok a =>
    cases h1 : as_int (cellString row (indices.getD 1 0)) with
    | error e => rw [h0, h1] at h; simp at h
    | ok b =>
      cases h2 : as_int (cellString row (indices.getD 2 0)) with
      | error e => rw [h0, h1, h2] at h; simp at h
      | ok c =>
        rw [h0, h1, h2] at h
        simp only [if_true, Except.ok.injEq] at h
        exact ⟨a, b, c, rfl, rfl, rfl, h.symm⟩

/-- Every row of a successfully materialized row list was itself
materialized successfully. -/
theorem materializeRows_ok_forall {indices : List Nat} {us unm : Bool}
    {mover : HklMover} :
    ∀ {rows : List (List String)} {rs : List (List FVal)},
    materializeRows indices us unm mover rows = .ok rs →
    ∀ row ∈ rows, ∃ r, materializeRow indices us unm mover row = .ok r := by
  intro rows
  induction rows with
  | nil => intro rs _ row hrow; simp at hrow
  | cons row0 rest ih =>
    intro rs h row hrow
    unfold materializeRows at h
    cases h0 : materializeRow indices us unm mover row0 with
    | error e => rw [h0] at h; simp at h
    | ok r0 =>
      rw [h0] at h
      cases h1 : materializeRows indices us unm mover rest with
      | error e => rw [h1] at h; simp at h
      | ok rs0 =>
        rcases List.mem_cons.mp hrow with rfl | hm
        · exact ⟨r0, h0⟩
        · exact ih h1 row hm

/-- With a nonzero width `n`, enough fuel, and a value count `n * k`,
the chunking loop yields `k` chunks. -/
theorem chunksGo_length {n : Nat} (hn : n ≠ 0) :
    ∀ (k fuel : Nat) (l : List String), l.length = n * k → l.length ≤ fuel →
    (chunksGo n fuel l).length = k := by
  intro k
  induction k with
  | zero =>
    intro fuel l hl _
    have hnil : l = [] := List.eq_nil_of_length_eq_zero (by omega)
    subst hnil
    cases fuel <;> rfl
  | succ k' ih =>
    intro fuel l hl hfuel
    cases l with
    | nil =>
      exfalso
      have h0 : n * (k' + 1) = 0 := by simpa using hl.symm
      have := Nat.pos_of_ne_zero hn
      nlinarith
    | cons x xs =>
      cases fuel with
      | zero => simp at hfuel
      | succ f =>
        show ((x :: xs).take n :: chunksGo n f ((x :: xs).drop n)).length = k' + 1
        simp only [List.length_cons]
        have hpos := Nat.pos_of_ne_zero hn
        have hlen : xs.length + 1 = n * (k' + 1) := by simpa using hl
        have hexp : n * (k' + 1) = n * k' + n := by ring
        rw [ih f ((x :: xs).drop n)
          (by simp only [List.length_drop, List.length_cons]; omega)
          (by simp only [List.length_drop, List.length_cons]
              simp only [List.length_cons] at hfuel; omega)]

/-- The number of rows produced by chunking: with a nonzero width that
divides the total value count, it is the quotient. -/
theorem chunksOf_length {n : Nat} (hn : n ≠ 0) (l : List String)
    (hdvd : n ∣ l.length) : (chunksOf n l).length = l.length / n := by
  obtain ⟨k, hk⟩ := hdvd
  unfold chunksOf
  rw [if_neg hn, chunksGo_length hn k l.length l hk (le_refl _), hk,
    Nat.mul_div_cancel_left _ (Nat.pos_of_ne_zero hn)]

/-- A null-marker cell put through the status re-encoding gives NaN
(`.` and `?` both start with a character that is neither a quote nor
`o` nor `f`). -/
theorem status_to_freeflag_null {s : String} (h : is_null s = true) :
    status_to_freeflag s = FVal.nan := by
  have hs : s = "." ∨ s = "?" := by simpa [is_null] using h
  rcases hs with rfl | rfl <;> decide

/-- A null-marker cell in a general column materializes as NaN. -/
theorem generalCell_null {row : List String} {idx : Nat}
    (h : is_null (cellString row idx) = true) :
    generalCell row idx = FVal.nan := by
  simp [generalCell, h]

/-! ### Claim theorems -/

/-- Claim C1: with the built-in default spec table, a merged-mode block
whose reflection loop has exactly the tags `index_h, index_k, index_l,
F_meas_au, F_meas_sigma_au` and the single row `(1, 2, 3, 100.0, 5.0)`
converts to a container with exactly the five columns `H, K, L, FP,
SIGFP` of types `H, H, H, F, Q`, one reflection, and data
`[1, 2, 3, 100.0, 5.0]`. -/
theorem default_spec_merged_scenario :
    (parseSpecLines default_spec).bind
      (fun es => convert_block_to_mtz es false moverId mergedExampleBlock) =
    .ok { columns := [{ dataset_id := 0, type := 'H', label := "H" },
                      { dataset_id := 0, type := 'H', label := "K" },
                      { dataset_id := 0, type := 'H', label := "L" },
                      { dataset_id := 1, type := 'F', label := "FP" },
                      { dataset_id := 1, type := 'Q', label := "SIGFP" }],
          nbatches := 0, nreflections := 1,
          data := [.num 1, .num 2, .num 3, .num 100, .num 5] } := by decide

/-- Claim C7, counterexample: `status_to_freeflag` examines only the first
character (after an optional quote), so the input `"ox"` — which is
neither `o` nor `f` nor a quoted form of either — maps to `1.0`, not to
NaN as the claim requires for "every other input string". -/
theorem status_first_char_counterexample :
    status_to_freeflag "ox" = FVal.num 1 ∧ FVal.num 1 ≠ FVal.nan := by decide

/-- Claim C7, amended: `status_to_freeflag` maps a string by its first
character, stepping over one leading single- or double-quote: `o` gives
1.0, `f` gives 0.0, anything else gives NaN.  In particular `"o"` gives
1.0 and the quoted `"'f'"` gives 0.0. -/
theorem status_to_freeflag_first_char (s : String) (c : Char)
    (hc : c = (if charAt s 0 = '\'' || charAt s 0 = '"' then charAt s 1
               else charAt s 0)) :
    (c = 'o' → status_to_freeflag s = FVal.num 1) ∧
    (c = 'f' → status_to_freeflag s = FVal.num 0) ∧
    (c ≠ 'o' → c ≠ 'f' → status_to_freeflag s = FVal.nan) := by
  subst hc
  simp only [status_to_freeflag]
  refine ⟨fun h1 => ?_, fun h1 => ?_, fun h1 h2 => ?_⟩
  · rw [if_pos h1]
  · rw [if_neg (by rw [h1]; decide), if_pos h1]
  · rw [if_neg h1, if_neg h2]

/-- Claim C7, witness: the amended rule applied to the quoted `'f'`. -/
theorem status_to_freeflag_first_char_witness :
    status_to_freeflag "'f'" = FVal.num 0 :=
  (status_to_freeflag_first_char "'f'" 'f' (by decide)).2.1 rfl

/-- Claim C3, counterexample: a null marker `?` in the `index_h` cell is
not written as NaN — the Miller-index cells are integer-parsed with no
null check, so the conversion of the block fails outright and produces
no destination cell at all. -/
theorem null_miller_index_counterexample :
    (parseSpecLines default_spec).bind
      (fun es => convert_block_to_mtz es false moverId nullIndexBlock) =
    .error "not an integer: ?" := by decide

/-- In either mode's tail cells, a source cell holding the null marker at
resolved position `j ≥ 3` materializes as NaN: the status slot maps the
markers to NaN and the general slots check the null marker first. -/
theorem tailCells_null_nan (indices : List Nat) (us : Bool)
    (row : List String) (j : Nat)
    (h3 : 3 ≤ j) (hj : j < indices.length)
    (hnull : is_null (cellString row (indices.getD j 0)) = true) :
    (tailCells indices us row)[j - 3]? = some FVal.nan := by
  have hsome : indices[j]? = some (indices.getD j 0) := by
    rw [List.getElem?_eq_getElem hj]
    simp [List.getD, List.getElem?_eq_getElem hj]
  cases us with
  | true =>
    simp only [tailCells, reduceIte]
    rcases Nat.lt_or_ge j 4 with hj4 | hj4
    · have hj3 : j = 3 := by omega
      subst hj3
      rw [show (3 : Nat) - 3 = 0 from rfl, List.getElem?_cons_zero,
        status_to_freeflag_null hnull]
    · rw [show j - 3 = (j - 4) + 1 by omega, List.getElem?_cons_succ,
        List.getElem?_map, List.getElem?_drop, show 4 + (j - 4) = j by omega, hsome]
      show some (generalCell row (indices.getD j 0)) = some FVal.nan
      rw [generalCell_null hnull]
  | false =>
    simp only [tailCells, Bool.false_eq_true, if_false]
    rw [List.getElem?_map, List.getElem?_drop, show 3 + (j - 3) = j by omega, hsome]
    show some (generalCell row (indices.getD j 0)) = some FVal.nan
    rw [generalCell_null hnull]

/-- Claim C3, amended: in merged and unmerged mode alike, for every
resolved column other than the three Miller-index columns — the status
column included — a source cell holding the null marker materializes as
NaN, at its row position in merged mode and two places later in unmerged
mode (after the synthetic ISYM and batch fields); a null marker in a
Miller-index cell is instead handed to the integer parser (which rejects
it), never becoming a NaN cell. -/
theorem null_marker_becomes_nan (indices : List Nat) (us unm : Bool)
    (mover : HklMover) (row : List String) (r : List FVal) (j : Nat)
    (hm : materializeRow indices us unm mover row = .ok r)
    (h3 : 3 ≤ j) (hj : j < indices.length)
    (hnull : is_null (cellString row (indices.getD j 0)) = true) :
    r[if unm = true then j + 2 else j]? = some FVal.nan := by
  cases unm with
  | false =>
    obtain ⟨h0, k0, l0, _, _, _, hr⟩ := materializeRow_merged_ok hm
    subst hr
    have hlen3 : ([FVal.num (h0 : ℚ), FVal.num (k0 : ℚ), FVal.num (l0 : ℚ)] :
        List FVal).length = 3 := rfl
    simp only [Bool.false_eq_true, if_false]
    rw [List.getElem?_append_right (by rw [hlen3]; omega), hlen3]
    exact tailCells_null_nan indices us row j h3 hj hnull
  | true =>
    obtain ⟨h0, k0, l0, _, _, _, hr⟩ := materializeRow_unmerged_ok hm
    subst hr
    have hlen5 : ([FVal.num (mover (h0, k0, l0)).1.1,
        FVal.num (mover (h0, k0, l0)).1.2.1,
        FVal.num (mover (h0, k0, l0)).1.2.2,
        FVal.num (mover (h0, k0, l0)).2, FVal.num 1] :
        List FVal).length = 5 := rfl
    simp only [reduceIte]
    rw [List.getElem?_append_right (by rw [hlen5]; omega), hlen5]
    rw [show j + 2 - 5 = j - 3 by omega]
    exact tailCells_null_nan indices us row j h3 hj hnull

/-- Claim C3, witness: the amended null rule in both modes — a merged row
whose fourth resolved cell is the not-applicable marker `.`, and an
unmerged row whose fourth resolved cell is the unknown marker `?`,
materialized two places later, after the ISYM and batch fields. -/
theorem null_marker_becomes_nan_witness :
    ([FVal.num 1, FVal.num 2, FVal.num 3, FVal.nan, FVal.num 5] :
      List FVal)[3]? = some FVal.nan ∧
    ([FVal.num 1, FVal.num 0, FVal.num 2, FVal.num 3, FVal.num 1, FVal.nan] :
      List FVal)[5]? = some FVal.nan :=
  ⟨null_marker_becomes_nan [0, 1, 2, 3, 4] false false moverId
      ["1", "2", "3", ".", "5.0"]
      [FVal.num 1, FVal.num 2, FVal.num 3, FVal.nan, FVal.num 5]
      3 (by decide) (by decide) (by decide) (by decide),
    null_marker_becomes_nan [0, 1, 2, 3] false true mover3
      ["-1", "0", "2", "?"]
      [FVal.num 1, FVal.num 0, FVal.num 2, FVal.num 3, FVal.num 1, FVal.nan]
      3 (by decide) (by decide) (by decide) (by decide)⟩

/-- Claim C8, counterexample: with a spec table whose status entry
resolves at position 4 (after `H, K, L, FP`), the status re-encoding is
applied at resolved position 3 — to the `FP` column, whose value
`"100.0"` becomes NaN — while the flagged `FLAG` column's cell gets the
numeric parse of `"o"` (NaN), not `status_to_freeflag "o" = 1`.  So the
re-encoding is not applied at the flagged column's resolved position. -/
theorem status_fixed_position_counterexample :
    convert_block_to_mtz statusSpec false moverId statusBlock =
      .ok { columns := [{ dataset_id := 0, type := 'H', label := "H" },
                        { dataset_id := 0, type := 'H', label := "K" },
                        { dataset_id := 0, type := 'H', label := "L" },
                        { dataset_id := 1, type := 'F', label := "FP" },
                        { dataset_id := 0, type := 'I', label := "FLAG" }],
            nbatches := 0, nreflections := 1,
            data := [.num 1, .num 2, .num 3, FVal.nan, FVal.nan] } ∧
    status_to_freeflag "o" = FVal.num 1 := by decide

/-- Claim C8, amended: when a status column was flagged, the merged-mode
row materializer applies the status re-encoding exactly once per row, at
resolved position 3 (the fourth resolved column, right after the Miller
indices) — not at the flagged column's own resolved position — and every
later resolved column is materialized as a general numeric cell. -/
theorem status_applied_at_position_three (indices : List Nat)
    (mover : HklMover) (row : List String) (r : List FVal)
    (hm : materializeRow indices true false mover row = .ok r) :
    ∃ h0 k0 l0,
      as_int (cellString row (indices.getD 0 0)) = .ok h0 ∧
      as_int (cellString row (indices.getD 1 0)) = .ok k0 ∧
      as_int (cellString row (indices.getD 2 0)) = .ok l0 ∧
      r = [FVal.num h0, FVal.num k0, FVal.num l0,
           status_to_freeflag (cellString row (indices.getD 3 0))] ++
          (indices.drop 4).map (generalCell row) := by
  obtain ⟨h0, k0, l0, e0, e1, e2, hr⟩ := materializeRow_merged_ok hm
  refine ⟨h0, k0, l0, e0, e1, e2, ?_⟩
  rw [hr]
  simp [tailCells]

/-- Claim C8, witness: the amended rule on a concrete row, with the status
source column sitting at resolved position 4. -/
theorem status_applied_at_position_three_witness :
    ∃ h0 k0 l0,
      as_int (cellString ["1", "2", "3", "100.0", "o"] ([0, 1, 2, 3, 4].getD 0 0)) = .ok h0 ∧
      as_int (cellString ["1", "2", "3", "100.0", "o"] ([0, 1, 2, 3, 4].getD 1 0)) = .ok k0 ∧
      as_int (cellString ["1", "2", "3", "100.0", "o"] ([0, 1, 2, 3, 4].getD 2 0)) = .ok l0 ∧
      ([FVal.num 1, FVal.num 2, FVal.num 3, FVal.nan, FVal.nan] : List FVal) =
        [FVal.num h0, FVal.num k0, FVal.num l0,
         status_to_freeflag (cellString ["1", "2", "3", "100.0", "o"]
           ([0, 1, 2, 3, 4].getD 3 0))] ++
        ([0, 1, 2, 3, 4].drop 4).map (generalCell ["1", "2", "3", "100.0", "o"]) :=
  status_applied_at_position_three [0, 1, 2, 3, 4] moverId
    ["1", "2", "3", "100.0", "o"]
    [FVal.num 1, FVal.num 2, FVal.num 3, FVal.nan, FVal.nan] (by decide)

/-- Claim C6: a block with only the `_diffrn_refln` category is converted
in unmerged mode even without the force-unmerged flag: the unmerged
boolean is true, the conversion agrees with the forced-unmerged one, and
a successful conversion carries exactly one batch record. -/
theorem diffrn_only_block_is_unmerged (spec : List Entry) (mover : HklMover)
    (rb : ReflnBlock) (hm : rb.refln_loop = none) :
    unmergedMode false rb = true ∧
    convert_block_to_mtz spec false mover rb =
      convert_block_to_mtz spec true mover rb ∧
    ∀ mtz, convert_block_to_mtz spec false mover rb = .ok mtz →
      mtz.nbatches = 1 := by
  have hu : unmergedMode false rb = true := by simp [unmergedMode, hm]
  have hu' : unmergedMode true rb = true := by simp [unmergedMode, hm]
  refine ⟨hu, ?_, ?_⟩
  · simp only [convert_block_to_mtz, hu, hu']
  · intro mtz hconv
    simp only [convert_block_to_mtz, hu] at hconv
    split at hconv
    · exact absurd hconv (by simp)
    · split at hconv
      · exact absurd hconv (by simp)
      · split at hconv
        · exact absurd hconv (by simp)
        · simp only [Except.ok.injEq] at hconv
          rw [← hconv]
          simp

/-- Claim C6, witness: the unmerged detection on a concrete
diffraction-only block. -/
theorem diffrn_only_block_is_unmerged_witness :
    unmergedMode false diffrnBlock = true ∧
    convert_block_to_mtz specU false mover3 diffrnBlock =
      convert_block_to_mtz specU true mover3 diffrnBlock ∧
    ∀ mtz, convert_block_to_mtz specU false mover3 diffrnBlock = .ok mtz →
      mtz.nbatches = 1 :=
  diffrn_only_block_is_unmerged specU mover3 diffrnBlock rfl

/-- Claim C9, counterexample: in directory mode a binary-writer failure on
the first block exits the whole run with code 3: the second block — which
would itself convert and write successfully — is never processed, and the
exit code is 3, not the partial-failure code 1. -/
theorem write_failure_stops_siblings_counterexample :
    run_dir specSmall false moverId failOnA "out" [blockA, blockB] =
      { exitCode := 3, written := [] } ∧
    convert_and_write specSmall false moverId failOnA blockB "out/b.mtz" =
      BlockOutcome.written := by decide

/-- Claim C9, amended: a failure of the binary writer is fatal for the
whole run also in directory mode: the run stops at once with exit code 3
and no later block is converted or written (only conversion errors are
per-block). -/
theorem write_failure_fatal_whole_run (spec : List Entry) (f : Bool)
    (mover : HklMover) (writeOk : String → Bool) (dir : String)
    (rb : ReflnBlock) (rest : List ReflnBlock) (mtz : Mtz)
    (hok : convert_block_to_mtz spec f mover rb = .ok mtz)
    (hw : writeOk (blockPath dir rb) = false) :
    run_dir spec f mover writeOk dir (rb :: rest) =
      { exitCode := 3, written := [] } := by
  unfold run_dir runBlocks
  simp [convert_and_write, hok, hw]

/-- Claim C9, witness: the amended rule on a concrete block whose writer
fails. -/
theorem write_failure_fatal_whole_run_witness :
    run_dir specSmall false moverId failOnA "out" [blockA] =
      { exitCode := 3, written := [] } :=
  write_failure_fatal_whole_run specSmall false moverId failOnA "out" blockA []
    { columns := [{ dataset_id := 0, type := 'H', label := "H" },
                  { dataset_id := 0, type := 'H', label := "K" },
                  { dataset_id := 0, type := 'H', label := "L" },
                  { dataset_id := 1, type := 'F', label := "FP" }],
      nbatches := 0, nreflections := 1,
      data := [.num 1, .num 2, .num 3, .num (mkRat 23 2)] }
    (by decide) (by decide)

/-- Claim C4: for every source block and spec table, a Miller-index
(`H`-typed) spec entry whose prefixed tag is absent from the block's
reflection loop makes the conversion of that block fail with a
missing-Miller-index-tag error naming a missing index tag, and the block
outcome is a conversion error, so no output file is written; removing any
one of the three index tags from a source loop is such a situation. -/
theorem missing_index_tag_fails (spec : List Entry) (f : Bool)
    (mover : HklMover) (rb : ReflnBlock) (lp : Loop)
    (hsel : selectedLoop rb = some lp)
    (hmiss : ∃ e ∈ spec, e.col_type = 'H' ∧
      find_tag lp.tags (tagCategory (lp.tags.headD "") ++ e.refln_tag) = none) :
    ∃ e ∈ spec, e.col_type = 'H' ∧
      find_tag lp.tags (tagCategory (lp.tags.headD "") ++ e.refln_tag) = none ∧
      convert_block_to_mtz spec f mover rb =
        .error ("Miller index tag not found: " ++
          (tagCategory (lp.tags.headD "") ++ e.refln_tag)) ∧
      ∀ (writeOk : String → Bool) (path : String),
        convert_and_write spec f mover writeOk rb path =
          .convError ("Miller index tag not found: " ++
            (tagCategory (lp.tags.headD "") ++ e.refln_tag)) := by
  obtain ⟨e, hme, hH, hnone, herr⟩ :=
    @resolveFold_error_of_missing_H lp (tagCategory (lp.tags.headD ""))
      (unmergedMode f rb) spec ⟨[], [], false⟩ hmiss
  have hconv : convert_block_to_mtz spec f mover rb =
      .error ("Miller index tag not found: " ++
        (tagCategory (lp.tags.headD "") ++ e.refln_tag)) := by
    simp only [convert_block_to_mtz, hsel, resolveSpec, herr]
  exact ⟨e, hme, hH, hnone, hconv, fun writeOk path => by
    simp only [convert_and_write, hconv]⟩

/-- Claim C4, witness: a concrete loop lacking the `index_k` tag fails
with the missing-index error and yields a conversion-error outcome. -/
theorem missing_index_tag_fails_witness :
    ∃ e ∈ specSmall, e.col_type = 'H' ∧
      find_tag ["_refln.index_h", "_refln.index_l", "_refln.F_meas_au"]
        (tagCategory ((["_refln.index_h", "_refln.index_l",
          "_refln.F_meas_au"] : List String).headD "") ++ e.refln_tag) = none ∧
      convert_block_to_mtz specSmall false moverId missingKBlock =
        .error ("Miller index tag not found: " ++
          (tagCategory ((["_refln.index_h", "_refln.index_l",
            "_refln.F_meas_au"] : List String).headD "") ++ e.refln_tag)) ∧
      ∀ (writeOk : String → Bool) (path : String),
        convert_and_write specSmall false moverId writeOk missingKBlock path =
          .convError ("Miller index tag not found: " ++
            (tagCategory ((["_refln.index_h", "_refln.index_l",
              "_refln.F_meas_au"] : List String).headD "") ++ e.refln_tag)) :=
  missing_index_tag_fails specSmall false moverId missingKBlock
    { tags := ["_refln.index_h", "_refln.index_l", "_refln.F_meas_au"],
      values := ["1", "3", "100.0"] }
    rfl
    ⟨{ refln_tag := "index_k", col_label := "K", col_type := 'H', dataset_id := 0 },
      by decide, by decide, by decide⟩

/-- Inserting the two synthetic columns grows the column count by two
(when the three Miller-index columns are present). -/
theorem insert_synthetic_length {cols : List Column} (h3 : 3 ≤ cols.length) :
    (insert_synthetic cols).length = cols.length + 2 := by
  simp only [insert_synthetic, List.length_append, List.length_take,
    List.length_drop, List.length_cons, List.length_nil]
  omega

/-- The symmetry-operator-code column sits at index 3 after insertion. -/
theorem insert_synthetic_getElem3 {cols : List Column} (h3 : 3 ≤ cols.length) :
    (insert_synthetic cols)[3]? = some misymColumn := by
  have htake : (cols.take 3).length = 3 := by
    simp only [List.length_take]; omega
  unfold insert_synthetic
  rw [List.getElem?_append_left (by
    simp only [List.length_append, htake, List.length_cons, List.length_nil]
    omega)]
  rw [List.getElem?_append_right (by omega : (cols.take 3).length ≤ 3), htake]
  rfl

/-- The batch-number column sits at index 4 after insertion. -/
theorem insert_synthetic_getElem4 {cols : List Column} (h3 : 3 ≤ cols.length) :
    (insert_synthetic cols)[4]? = some batchColumn := by
  have htake : (cols.take 3).length = 3 := by
    simp only [List.length_take]; omega
  unfold insert_synthetic
  rw [List.getElem?_append_left (by
    simp only [List.length_append, htake, List.length_cons, List.length_nil]
    omega)]
  rw [List.getElem?_append_right (by omega : (cols.take 3).length ≤ 4), htake]
  rfl

/-- Claim C2: a block converted in unmerged mode with `m` resolved
non-synthetic columns and a well-formed loop of `n` rows yields a
container with `m + 2` columns — the synthetic `M/ISYM` (type `Y`,
dataset 1) at index 3 and `BATCH` (type `B`, dataset 1) at index 4 —
exactly one batch record and `n` rows, and every materialized row starts
with the canonical H, K, L, the ISYM code returned by the symmetry
service, and the constant batch number 1. -/
theorem unmerged_output_shape (spec : List Entry) (f : Bool) (mover : HklMover)
    (rb : ReflnBlock) (lp : Loop) (st : ResolveState) (mtz : Mtz)
    (hsel : selectedLoop rb = some lp)
    (hunm : unmergedMode f rb = true)
    (hres : resolveSpec lp (tagCategory (lp.tags.headD "")) true spec = .ok st)
    (h3 : 3 ≤ st.columns.length)
    (hnz : lp.tags.length ≠ 0)
    (hdvd : lp.tags.length ∣ lp.values.length)
    (hconv : convert_block_to_mtz spec f mover rb = .ok mtz) :
    mtz.columns.length = st.columns.length + 2 ∧
    mtz.columns[3]? = some misymColumn ∧
    mtz.columns[4]? = some batchColumn ∧
    mtz.nbatches = 1 ∧
    mtz.nreflections = lp.values.length / lp.tags.length ∧
    (loopRows lp).length = mtz.nreflections ∧
    (∃ rows, materializeRows st.indices st.uses_status true mover (loopRows lp) =
        .ok rows ∧ mtz.data = rows.flatten) ∧
    ∀ row ∈ loopRows lp, ∃ h0 k0 l0 rest,
      as_int (cellString row (st.indices.getD 0 0)) = .ok h0 ∧
      as_int (cellString row (st.indices.getD 1 0)) = .ok k0 ∧
      as_int (cellString row (st.indices.getD 2 0)) = .ok l0 ∧
      materializeRow st.indices st.uses_status true mover row =
        .ok ([FVal.num (mover (h0, k0, l0)).1.1, FVal.num (mover (h0, k0, l0)).1.2.1,
              FVal.num (mover (h0, k0, l0)).1.2.2, FVal.num (mover (h0, k0, l0)).2,
              FVal.num 1] ++ rest) := by
  simp only [convert_block_to_mtz, hsel, hunm, hres, reduceIte] at hconv
  cases hmat : materializeRows st.indices st.uses_status true mover (loopRows lp) with
  | error e => rw [hmat] at hconv; exact absurd hconv (by simp)
  | ok rows =>
    rw [hmat] at hconv
    simp only [Except.ok.injEq] at hconv
    subst hconv
    refine ⟨insert_synthetic_length h3, insert_synthetic_getElem3 h3,
      insert_synthetic_getElem4 h3, rfl, rfl, ?_, ⟨rows, rfl, rfl⟩, ?_⟩
    · show (loopRows lp).length = lp.values.length / lp.tags.length
      exact chunksOf_length hnz lp.values hdvd
    · intro row hrow
      obtain ⟨r, hr⟩ := materializeRows_ok_forall hmat row hrow
      obtain ⟨h0, k0, l0, e0, e1, e2, hreq⟩ := materializeRow_unmerged_ok hr
      rw [hreq] at hr
      exact ⟨h0, k0, l0, tailCells st.indices st.uses_status row, e0, e1, e2, hr⟩


/-- Claim C2, witness: the unmerged shape facts on a concrete
diffraction-only block with one row, a five-entry spec, and a concrete
symmetry service. -/
theorem unmerged_output_shape_witness :
    mtzU.columns.length = stU.columns.length + 2 ∧
    mtzU.columns[3]? = some misymColumn ∧
    mtzU.columns[4]? = some batchColumn ∧
    mtzU.nbatches = 1 ∧
    mtzU.nreflections = diffrnLoop.values.length / diffrnLoop.tags.length := by
  have h := unmerged_output_shape specU false mover3 diffrnBlock diffrnLoop stU
    mtzU rfl (by decide) (by decide) (by decide) (by decide) (by decide)
    (by decide)
  exact ⟨h.1, h.2.1, h.2.2.1, h.2.2.2.1, h.2.2.2.2.1⟩

/-- Unfolding step of the resolution loop on a failing entry. -/
theorem resolveFold_cons_err {lp : Loop} {pfx : String} {unm : Bool}
    {st : ResolveState} {e : Entry} {rest : List Entry} {msg : String}
    (he : resolveEntry lp pfx unm st e = .error msg) :
    resolveFold lp pfx unm st (e :: rest) = .error msg := by
  have hstep : resolveFold lp pfx unm st (e :: rest) =
      match resolveEntry lp pfx unm st e with
      | .ok st' => resolveFold lp pfx unm st' rest
      | .error m => .error m := rfl
  simp only [hstep, he]

/-- Columns arising from entries whose labels all differ from `L` have
labels differing from `L`. -/
theorem ext_labels_ne {C : List Entry} {L : String} {ext : List (Column × Nat)}
    (hmem : ∀ p ∈ ext, ∃ e ∈ C, p.1 = mkColumn e)
    (hC : ∀ e ∈ C, e.col_label ≠ L) :
    ∀ p ∈ ext, p.1.label ≠ L := by
  intro p hp
  obtain ⟨e, he, hpe⟩ := hmem p hp
  rw [hpe]
  show (mkColumn e).label ≠ L
  simpa [mkColumn] using hC e he

/-- A resolver state whose columns are the projections of pairs with
labels all different from `L` does not end in a column labelled `L`. -/
theorem fold_columns_last_ne {stA : ResolveState} {ext : List (Column × Nat)}
    {L : String}
    (hc : stA.columns = ext.map Prod.fst)
    (hlabels : ∀ p ∈ ext, p.1.label ≠ L) :
    stA.columns.getLast?.map Column.label ≠ some L := by
  apply getLast_label_ne
  intro c hcmem
  rw [hc] at hcmem
  obtain ⟨p, hp, rfl⟩ := List.mem_map.mp hcmem
  exact hlabels p hp

/-- Zipping the projections of three concatenated pair lists restores the
concatenation. -/
theorem zip_three_proj (extA mid extB : List (Column × Nat)) :
    ((extA.map Prod.fst ++ mid.map Prod.fst ++ extB.map Prod.fst).zip
     (extA.map Prod.snd ++ mid.map Prod.snd ++ extB.map Prod.snd)) =
      extA ++ mid ++ extB := by
  rw [List.zip_append (by simp), List.zip_append (by simp),
    zip_proj_eq, zip_proj_eq, zip_proj_eq]

/-- Filtering a three-part pair list by label `L` reduces to filtering
the middle part when the outer parts carry no `L`-labelled column. -/
theorem pairs_filter_concat (L : String) (extA extB mid : List (Column × Nat))
    (hA : ∀ p ∈ extA, p.1.label ≠ L) (hB : ∀ p ∈ extB, p.1.label ≠ L) :
    (extA ++ mid ++ extB).filter (fun p => p.1.label == L) =
      mid.filter (fun p => p.1.label == L) := by
  rw [List.filter_append, List.filter_append]
  have hA0 : extA.filter (fun p => p.1.label == L) = [] := by
    rw [List.filter_eq_nil_iff]
    intro p hp
    simp [hA p hp]
  have hB0 : extB.filter (fun p => p.1.label == L) = [] := by
    rw [List.filter_eq_nil_iff]
    intro p hp
    simp [hB p hp]
  rw [hA0, hB0]
  simp

/-- Claim C5: for a spec table with two consecutive entries sharing a
destination label (the only entries with that label), when only the
second entry's tag exists in the loop the resolver selects the second
entry and produces exactly one column with that label; when the first
entry's tag exists the first wins and the second is skipped, again with
exactly one column with that label. -/
theorem duplicate_alternative_resolution
    (lp : Loop) (pfx : String) (unm : Bool) (A B : List Entry) (e1 e2 : Entry)
    (st : ResolveState)
    (hlab : e1.col_label = e2.col_label)
    (hA : ∀ e ∈ A, e.col_label ≠ e2.col_label)
    (hB : ∀ e ∈ B, e.col_label ≠ e2.col_label)
    (hok : resolveSpec lp pfx unm (A ++ e1 :: e2 :: B) = .ok st) :
    (find_tag lp.tags (pfx ++ e1.refln_tag) = none →
      ∀ i2, find_tag lp.tags (pfx ++ e2.refln_tag) = some i2 →
      (unm = false ∨ e2.col_type ≠ 's') →
      (resolvedPairs st).filter (fun p => p.1.label == e2.col_label) =
        [(mkColumn e2, i2)]) ∧
    (∀ i1, find_tag lp.tags (pfx ++ e1.refln_tag) = some i1 →
      (unm = false ∨ e1.col_type ≠ 's') →
      (resolvedPairs st).filter (fun p => p.1.label == e2.col_label) =
        [(mkColumn e1, i1)]) := by
  have hok' : resolveFold lp pfx unm ⟨[], [], false⟩ (A ++ e1 :: e2 :: B) =
      .ok st := hok
  obtain ⟨stA, hfoldA, hfold1⟩ := resolveFold_append_ok hok'
  obtain ⟨extA, hcA, hiA, hmemA⟩ := resolveFold_shape hfoldA
  have hcA' : stA.columns = extA.map Prod.fst := by simpa using hcA
  have hiA' : stA.indices = extA.map Prod.snd := by simpa using hiA
  have hlabelsA : ∀ p ∈ extA, p.1.label ≠ e2.col_label := ext_labels_ne hmemA hA
  have hlast : stA.columns.getLast?.map Column.label ≠ some e2.col_label :=
    fold_columns_last_ne hcA' hlabelsA
  constructor
  · intro h1 i2 h2 hs
    have hH1 : e1.col_type ≠ 'H' := by
      intro hH
      have herr1 : resolveFold lp pfx unm stA (e1 :: e2 :: B) =
          .error ("Miller index tag not found: " ++ (pfx ++ e1.refln_tag)) :=
        resolveFold_cons_err (by simp [resolveEntry, h1, hH])
      rw [herr1] at hfold1
      exact absurd hfold1 (by simp)
    rw [resolveFold_cons_ok (resolveEntry_skips_absent h1 hH1)] at hfold1
    rw [resolveFold_cons_ok (resolveEntry_appends h2 hlast hs)] at hfold1
    obtain ⟨extB, hcB, hiB, hmemB⟩ := resolveFold_shape hfold1
    have hlabelsB : ∀ p ∈ extB, p.1.label ≠ e2.col_label :=
      ext_labels_ne hmemB hB
    have hc : st.columns =
        extA.map Prod.fst ++ [mkColumn e2] ++ extB.map Prod.fst := by
      rw [hcB]; simp [hcA']
    have hi : st.indices =
        extA.map Prod.snd ++ [i2] ++ extB.map Prod.snd := by
      rw [hiB]; simp [hiA']
    have hpairs : resolvedPairs st = extA ++ [(mkColumn e2, i2)] ++ extB := by
      unfold resolvedPairs
      rw [hc, hi]
      simpa using zip_three_proj extA [(mkColumn e2, i2)] extB
    rw [hpairs, pairs_filter_concat _ _ _ _ hlabelsA hlabelsB]
    simp [mkColumn]
  · intro i1 h1 hs
    have hdup1 : stA.columns.getLast?.map Column.label ≠ some e1.col_label := by
      rw [hlab]; exact hlast
    rw [resolveFold_cons_ok (resolveEntry_appends h1 hdup1 hs)] at hfold1
    have hlast1 : ((stA.columns ++ [mkColumn e1]).getLast?.map Column.label) =
        some e2.col_label := by
      rw [List.getLast?_concat]
      simp [mkColumn, hlab]
    have hskip2 : resolveEntry lp pfx unm
        { indices := stA.indices ++ [i1], columns := stA.columns ++ [mkColumn e1],
          uses_status := stA.uses_status || e1.col_type = 's' } e2 =
        .ok { indices := stA.indices ++ [i1],
              columns := stA.columns ++ [mkColumn e1],
              uses_status := stA.uses_status || e1.col_type = 's' } := by
      cases h2 : find_tag lp.tags (pfx ++ e2.refln_tag) with
      | some i => exact resolveEntry_skips_dup h2 hlast1
      | none =>
        by_cases hH2 : e2.col_type = 'H'
        · have herr2 : resolveFold lp pfx unm
              { indices := stA.indices ++ [i1],
                columns := stA.columns ++ [mkColumn e1],
                uses_status := stA.uses_status || e1.col_type = 's' } (e2 :: B) =
              .error ("Miller index tag not found: " ++ (pfx ++ e2.refln_tag)) :=
            resolveFold_cons_err (by simp [resolveEntry, h2, hH2])
          rw [herr2] at hfold1
          exact absurd hfold1 (by simp)
        · exact resolveEntry_skips_absent h2 hH2
    rw [resolveFold_cons_ok hskip2] at hfold1
    obtain ⟨extB, hcB, hiB, hmemB⟩ := resolveFold_shape hfold1
    have hlabelsB : ∀ p ∈ extB, p.1.label ≠ e2.col_label :=
      ext_labels_ne hmemB hB
    have hc : st.columns =
        extA.map Prod.fst ++ [mkColumn e1] ++ extB.map Prod.fst := by
      rw [hcB]; simp [hcA']
    have hi : st.indices =
        extA.map Prod.snd ++ [i1] ++ extB.map Prod.snd := by
      rw [hiB]; simp [hiA']
    have hpairs : resolvedPairs st = extA ++ [(mkColumn e1, i1)] ++ extB := by
      unfold resolvedPairs
      rw [hc, hi]
      simpa using zip_three_proj extA [(mkColumn e1, i1)] extB
    rw [hpairs, pairs_filter_concat _ _ _ _ hlabelsA hlabelsB]
    simp [mkColumn, hlab]

/-- Claim C5, witness: with index entries, the alternatives
`intensity_meas`/`intensity_net` for label `I`, and a loop carrying only
`intensity_net`, the resolver selects the second alternative and produces
exactly one `I` column. -/
theorem duplicate_alternative_resolution_witness :
    (resolvedPairs
      { indices := [0, 1, 2, 3],
        columns := [{ dataset_id := 0, type := 'H', label := "H" },
                    { dataset_id := 0, type := 'H', label := "K" },
                    { dataset_id := 0, type := 'H', label := "L" },
                    { dataset_id := 1, type := 'J', label := "I" }],
        uses_status := false }).filter (fun p => p.1.label == "I") =
    [({ dataset_id := 1, type := 'J', label := "I" }, 3)] :=
  (duplicate_alternative_resolution
    { tags := ["_refln.index_h", "_refln.index_k", "_refln.index_l",
               "_refln.intensity_net"],
      values := ["1", "2", "3", "7.5"] }
    "_refln." false
    [{ refln_tag := "index_h", col_label := "H", col_type := 'H', dataset_id := 0 },
     { refln_tag := "index_k", col_label := "K", col_type := 'H', dataset_id := 0 },
     { refln_tag := "index_l", col_label := "L", col_type := 'H', dataset_id := 0 }]
    []
    { refln_tag := "intensity_meas", col_label := "I", col_type := 'J', dataset_id := 1 }
    { refln_tag := "intensity_net", col_label := "I", col_type := 'J', dataset_id := 1 }
    { indices := [0, 1, 2, 3],
      columns := [{ dataset_id := 0, type := 'H', label := "H" },
                  { dataset_id := 0, type := 'H', label := "K" },
                  { dataset_id := 0, type := 'H', label := "L" },
                  { dataset_id := 1, type := 'J', label := "I" }],
      uses_status := false }
    rfl (by decide) (by decide) (by decide)).1
    (by decide) 3 (by decide) (Or.inl rfl)

/-- Claim C10: the duplicate suppression compares an entry's label only
with the most recently appended column, so two entries sharing a
destination label but separated by an entry with a different label — all
three tags present — yield two distinct columns bearing the same label:
the resolver neither merges them nor fails on them. -/
theorem separated_duplicate_labels
    (lp : Loop) (pfx : String) (unm : Bool) (A B : List Entry)
    (e1 eMid e2 : Entry) (st : ResolveState) (i1 im i2 : Nat)
    (hlab : e1.col_label = e2.col_label)
    (hMid : eMid.col_label ≠ e2.col_label)
    (hA : ∀ e ∈ A, e.col_label ≠ e2.col_label)
    (hB : ∀ e ∈ B, e.col_label ≠ e2.col_label)
    (h1 : find_tag lp.tags (pfx ++ e1.refln_tag) = some i1)
    (hm : find_tag lp.tags (pfx ++ eMid.refln_tag) = some im)
    (h2 : find_tag lp.tags (pfx ++ e2.refln_tag) = some i2)
    (hs1 : unm = false ∨ e1.col_type ≠ 's')
    (hsm : unm = false ∨ eMid.col_type ≠ 's')
    (hs2 : unm = false ∨ e2.col_type ≠ 's')
    (hok : resolveSpec lp pfx unm (A ++ e1 :: eMid :: e2 :: B) = .ok st) :
    (resolvedPairs st).filter (fun p => p.1.label == e2.col_label) =
      [(mkColumn e1, i1), (mkColumn e2, i2)] := by
  have hok' : resolveFold lp pfx unm ⟨[], [], false⟩
      (A ++ e1 :: eMid :: e2 :: B) = .ok st := hok
  obtain ⟨stA, hfoldA, hfold1⟩ := resolveFold_append_ok hok'
  obtain ⟨extA, hcA, hiA, hmemA⟩ := resolveFold_shape hfoldA
  have hcA' : stA.columns = extA.map Prod.fst := by simpa using hcA
  have hiA' : stA.indices = extA.map Prod.snd := by simpa using hiA
  have hlabelsA : ∀ p ∈ extA, p.1.label ≠ e2.col_label := ext_labels_ne hmemA hA
  have hlast : stA.columns.getLast?.map Column.label ≠ some e2.col_label :=
    fold_columns_last_ne hcA' hlabelsA
  have hdup1 : stA.columns.getLast?.map Column.label ≠ some e1.col_label := by
    rw [hlab]; exact hlast
  rw [resolveFold_cons_ok (resolveEntry_appends h1 hdup1 hs1)] at hfold1
  have hdupm : ((stA.columns ++ [mkColumn e1]).getLast?.map Column.label) ≠
      some eMid.col_label := by
    rw [List.getLast?_concat]
    intro hcon
    have hlabcon : (mkColumn e1).label = eMid.col_label := by simpa using hcon
    rw [show (mkColumn e1).label = e1.col_label from rfl, hlab] at hlabcon
    exact hMid hlabcon.symm
  rw [resolveFold_cons_ok (resolveEntry_appends hm hdupm hsm)] at hfold1
  have hdup2 : (((stA.columns ++ [mkColumn e1]) ++ [mkColumn eMid]).getLast?.map
      Column.label) ≠ some e2.col_label := by
    rw [List.getLast?_concat]
    intro hcon
    have hlabcon : (mkColumn eMid).label = e2.col_label := by simpa using hcon
    exact hMid (by simpa [mkColumn] using hlabcon)
  rw [resolveFold_cons_ok (resolveEntry_appends h2 hdup2 hs2)] at hfold1
  obtain ⟨extB, hcB, hiB, hmemB⟩ := resolveFold_shape hfold1
  have hlabelsB : ∀ p ∈ extB, p.1.label ≠ e2.col_label := ext_labels_ne hmemB hB
  have hc : st.columns = extA.map Prod.fst ++
      [mkColumn e1, mkColumn eMid, mkColumn e2] ++ extB.map Prod.fst := by
    rw [hcB]; simp [hcA']
  have hi : st.indices = extA.map Prod.snd ++ [i1, im, i2] ++
      extB.map Prod.snd := by
    rw [hiB]; simp [hiA']
  have hpairs : resolvedPairs st =
      extA ++ [(mkColumn e1, i1), (mkColumn eMid, im), (mkColumn e2, i2)] ++
        extB := by
    unfold resolvedPairs
    rw [hc, hi]
    simpa using
      zip_three_proj extA
        [(mkColumn e1, i1), (mkColumn eMid, im), (mkColumn e2, i2)] extB
  rw [hpairs, pairs_filter_concat _ _ _ _ hlabelsA hlabelsB]
  simp [mkColumn, hlab, hMid]

/-- Claim C10, witness: `F_meas_au → FP` and `pdbx_FWT → FP` separated by
`fom → FOM`, all three tags present, give two distinct `FP` columns. -/
theorem separated_duplicate_labels_witness :
    (resolvedPairs
      { indices := [0, 1, 2, 3, 4, 5],
        columns := [{ dataset_id := 0, type := 'H', label := "H" },
                    { dataset_id := 0, type := 'H', label := "K" },
                    { dataset_id := 0, type := 'H', label := "L" },
                    { dataset_id := 1, type := 'F', label := "FP" },
                    { dataset_id := 1, type := 'W', label := "FOM" },
                    { dataset_id := 1, type := 'F', label := "FP" }],
        uses_status := false }).filter (fun p => p.1.label == "FP") =
    [({ dataset_id := 1, type := 'F', label := "FP" }, 3),
     ({ dataset_id := 1, type := 'F', label := "FP" }, 5)] :=
  separated_duplicate_labels
    { tags := ["_refln.index_h", "_refln.index_k", "_refln.index_l",
               "_refln.F_meas_au", "_refln.fom", "_refln.pdbx_FWT"],
      values := ["1", "2", "3", "100.0", "0.5", "7.5"] }
    "_refln." false
    [{ refln_tag := "index_h", col_label := "H", col_type := 'H', dataset_id := 0 },
     { refln_tag := "index_k", col_label := "K", col_type := 'H', dataset_id := 0 },
     { refln_tag := "index_l", col_label := "L", col_type := 'H', dataset_id := 0 }]
    []
    { refln_tag := "F_meas_au", col_label := "FP", col_type := 'F', dataset_id := 1 }
    { refln_tag := "fom", col_label := "FOM", col_type := 'W', dataset_id := 1 }
    { refln_tag := "pdbx_FWT", col_label := "FP", col_type := 'F', dataset_id := 1 }
    { indices := [0, 1, 2, 3, 4, 5],
      columns := [{ dataset_id := 0, type := 'H', label := "H" },
                  { dataset_id := 0, type := 'H', label := "K" },
                  { dataset_id := 0, type := 'H', label := "L" },
                  { dataset_id := 1, type := 'F', label := "FP" },
                  { dataset_id := 1, type := 'W', label := "FOM" },
                  { dataset_id := 1, type := 'F', label := "FP" }],
      uses_status := false }
    3 4 5 rfl (by decide) (by decide) (by decide) (by decide) (by decide)
    (by decide) (Or.inl rfl) (Or.inl rfl) (Or.inl rfl) (by decide)
